import Mathlib

/-!
Verification of the lbryum `commands.py` transaction-construction and
proof-verification core against its natural-language specification.

The Python source (`src/lib/commands.py`) is shallowly embedded below.
External collaborators (the wallet, the network, the `Transaction` helpers
from `transaction.py`, the cryptographic proof check from `claims.py` and
the constants from `lbrycrd.py`) are modelled as explicit capability
records, exactly at the interface the source consumes.  Observable
collaborator calls are recorded in an event trace so that ordering claims
("rejected before any wallet call") can be stated.
-/

namespace Lbryum

/-- Modelled from the spec: `lbrycrd.COIN` is not under `src/`; §2 and the
glossary fix it as the 10^8 subunit scale. -/
def COIN : ℤ := 100000000

/-- The amount conversion the commands perform inline:
`amount = int(COIN*amount)` (lines 894, 952, 1015; fee at 898, 956, 1019,
1120).  `COIN * q` as an exact rational is `(COIN * q.num) / q.den`, and
Python `int()` truncates toward zero, which is `Int.tdiv`. -/
def toSubunits (q : ℚ) : ℤ := Int.tdiv (COIN * q.num) (q.den : ℤ)

/-- Modelled from the spec: the `TYPE_*` bit flags live in `lbrycrd.py`
(not under `src/`); §6 of the spec fixes them as a base `Address` bit that
may combine with exactly one claim-family bit.  Concrete distinct bits are
chosen; the source only ever forms unions with `|` and tests bits with `&`. -/
def TYPE_ADDRESS : ℕ := 1

/-- Modelled from the spec: claim-family bit flag, see `TYPE_ADDRESS`. -/
def TYPE_CLAIM : ℕ := 2

/-- Modelled from the spec: claim-family bit flag, see `TYPE_ADDRESS`. -/
def TYPE_SUPPORT : ℕ := 4

/-- Modelled from the spec: claim-family bit flag, see `TYPE_ADDRESS`. -/
def TYPE_UPDATE : ℕ := 8

/-- A spendable coin (UTXO dict) as consumed by `update`/`abandon`:
only the fields the source reads are modelled, plus an identifier so
distinct coins are distinguishable. -/
structure Coin where
  is_support : Bool
  value : ℤ
  prevout_hash : String
  prevout_n : ℤ
deriving DecidableEq, Repr

/-- Output payload: either a plain destination address or one of the three
claim-family tuples `((name, val), addr)`, `((name, claim_id), addr)`,
`((name, claim_id, val), addr)` built by the source. -/
inductive Payload where
  | addr (a : String)
  | claim (name val a : String)
  | supportOf (name claimId a : String)
  | updateOf (name claimId val a : String)
deriving DecidableEq, Repr

/-- A transaction output triple `(txout_type, payload, amount)`. -/
structure TxOutput where
  typ : ℕ
  payload : Payload
  amount : ℤ
deriving DecidableEq, Repr

/-- An unsigned transaction as produced by `Transaction.from_io`. -/
structure Tx where
  inputs : List Coin
  outputs : List TxOutput
deriving DecidableEq, Repr

/-- `Transaction.get_fee()`: sum of input values minus sum of output amounts. -/
def txGetFee (tx : Tx) : ℤ :=
  (tx.inputs.map Coin.value).sum - (tx.outputs.map TxOutput.amount).sum

/-- Observable collaborator calls, recorded in order. -/
inductive Event where
  | createNewAddress (forChange : Bool)
  | getSpendableClaimtrieCoin (txid : String) (nout : ℤ)
  | getSpendableCoins
  | feeEstimated
  | makeUnsignedTransaction
  | signTransaction
  | sendTx
deriving DecidableEq, Repr

/-- Wallet collaborator capability surface (external to the core). -/
structure WalletEnv where
  newAddress : Bool → String
  claimCoin : String → ℤ → Coin
  spendableCoins : List Coin
  makeUnsigned : List Coin → List TxOutput → Option ℤ → String → Option Tx
  relayfee : ℤ
  feePerKb : ℤ
  sendtx : Tx → Bool × String

/-- `Transaction` / `lbrycrd` helper capabilities (external to the core). -/
structure TxEnv where
  estimatedSize : List Coin → List TxOutput → ℤ
  estimatedInputSize : Coin → ℤ
  feeForSize : ℤ → ℤ → ℤ → ℤ
  txHash : Tx → String
  claimIdOf : String → ℕ → String
  decodeClaimIdHex : String → String

/-- Result of a command: a success dict, a failure dict carrying a reason, or an uncaught Python exception. -/
inductive CmdResult (α : Type) where
  | ok (a : α)
  | failure (reason : String)
  | exn (msg : String)
deriving DecidableEq, Repr

/-- `claim_addr = self.wallet.create_new_address(...)` when the caller gave
no address; returns the address used plus the trace of wallet calls made. -/
def resolveAddr (w : WalletEnv) (forChange : Bool) (a : Option String) :
    String × List Event :=
  match a with
  | some x => (x, [])
  | none => (w.newAddress forChange, [Event.createNewAddress forChange])

/-- `if tx_fee is not None: tx_fee = int(COIN*tx_fee); if tx_fee < 0: reject`. -/
def validateTxFee (txFee : Option ℚ) : Except String (Option ℤ) :=
  match txFee with
  | none => Except.ok none
  | some q =>
      let f := toSubunits q
      if f < 0 then Except.error "tx_fee must be greater than or equal to 0"
      else Except.ok (some f)

/-- `update` lines 1014-1017: `if amount is not None: amount =
int(COIN*amount); if amount <= 0: reject`. -/
def updateValidateAmount (amount : Option ℚ) : Except String (Option ℤ) :=
  match amount with
  | none => Except.ok none
  | some q =>
      let a := toSubunits q
      if a ≤ 0 then Except.error "Amount must be greater than 0"
      else Except.ok (some a)

/-- `Commands._calculate_fee`: the explicit override bypasses size
measurement; otherwise a dummy transaction is built and
`Transaction.fee_for_size(relayfee, fee_per_kb, size)` is applied. -/
def calculateFee (w : WalletEnv) (t : TxEnv) (inputs : List Coin)
    (outputs : List TxOutput) (setTxFee : Option ℤ) : ℤ × List Event :=
  match setTxFee with
  | some f => (f, [])
  | none => (t.feeForSize w.relayfee w.feePerKb (t.estimatedSize inputs outputs),
             [Event.feeEstimated])

/-- The result-output scan `for i, output in enumerate(tx._outputs): if
output[0] & FLAG: nout = i; amount = output[2]` (keeps the last match). -/
def scanLastAux (flag : ℕ) : ℕ → Option ℕ × ℤ → List TxOutput → Option ℕ × ℤ
  | _, acc, [] => acc
  | i, acc, o :: rest =>
      scanLastAux flag (i + 1)
        (if o.typ &&& flag ≠ 0 then (some i, o.amount) else acc) rest

/-- Scan the outputs of a transaction for the last output carrying `flag`. -/
def scanLast (flag : ℕ) (outs : List TxOutput) : Option ℕ × ℤ :=
  scanLastAux flag 0 (none, 0) outs

/-- Success record of `Commands.update`. -/
structure UpdateOk where
  txid : String
  nout : Option ℕ
  tx : Tx
  amount : ℤ
  fee : ℤ
deriving DecidableEq, Repr

/-- Success record of `Commands.claim`. -/
structure ClaimOk where
  txid : String
  nout : ℕ
  tx : Tx
  fee : ℤ
  claimId : String
deriving DecidableEq, Repr

/-- Success record of `Commands.support`. -/
structure SupportOk where
  txid : String
  nout : Option ℕ
  tx : Tx
  fee : ℤ
deriving DecidableEq, Repr

/-- Success record of `Commands.abandon`. -/
structure AbandonOk where
  txid : String
  tx : Tx
  fee : ℤ
deriving DecidableEq, Repr

/-- Tail of `Commands.update` (lines 1081-1096): `Transaction.from_io`,
sign, optional broadcast, then the result-output scan. -/
def updateFinish (w : WalletEnv) (t : TxEnv) (inputs : List Coin)
    (outputs : List TxOutput) (broadcast : Bool) :
    CmdResult UpdateOk × List Event :=
  let tx : Tx := ⟨inputs, outputs⟩
  let sc := scanLast TYPE_UPDATE tx.outputs
  let okRes : CmdResult UpdateOk :=
    CmdResult.ok ⟨t.txHash tx, sc.1, tx, sc.2, txGetFee tx⟩
  if broadcast then
    let so := w.sendtx tx
    if so.1 then (okRes, [Event.signTransaction, Event.sendTx])
    else (CmdResult.failure so.2, [Event.signTransaction, Event.sendTx])
  else (okRes, [Event.signTransaction])

/-- `update` branch `amount >= txout_value` (line 1044-1048): the marginal
fee of the extra claim input, zero when the caller overrode the fee. -/
def marginalInputFee (w : WalletEnv) (t : TxEnv) (cu : Coin)
    (fSub : Option ℤ) : ℤ × List Event :=
  match fSub with
  | none => (t.feeForSize w.relayfee w.feePerKb (t.estimatedInputSize cu),
             [Event.feeEstimated])
  | some _ => (0, [])

/-- `Commands.update` from the claim-UTXO fetch onward (lines 1023-1096),
after amount/fee validation has produced subunit values. -/
def updateCore (w : WalletEnv) (t : TxEnv) (ptxid : String) (pnout : ℤ)
    (name cid val : String) (aSub fSub : Option ℤ) (broadcast : Bool)
    (ca ch : String) : CmdResult UpdateOk × List Event :=
  let cu := w.claimCoin ptxid pnout
  let e0 := [Event.getSpendableClaimtrieCoin ptxid pnout]
  if cu.is_support then (CmdResult.failure "Cannot update a support", e0)
  else
    let inputs := [cu]
    let v := cu.value
    match aSub with
    | none =>
        let dummyOutputs := [⟨TYPE_ADDRESS ||| TYPE_UPDATE, Payload.updateOf name cid val ca, v⟩]
        let cf := calculateFee w t inputs dummyOutputs fSub
        if v ≤ cf.1 then
          (CmdResult.failure "Fee will exceed amount available in original bid. Increase amount",
           e0 ++ cf.2)
        else
          let outputs := [⟨TYPE_ADDRESS ||| TYPE_UPDATE, Payload.updateOf name cid val ca, v - cf.1⟩]
          let fin := updateFinish w t inputs outputs broadcast
          (fin.1, e0 ++ cf.2 ++ fin.2)
    | some a =>
        if a ≤ 0 then (CmdResult.failure "Amount must be greater than zero", e0)
        else if v ≤ a then
          let mf := marginalInputFee w t cu fSub
          let need := a - v + mf.1
          let dummyOutputs := [⟨TYPE_ADDRESS ||| TYPE_UPDATE, Payload.updateOf name cid val ca, need⟩]
          let eg := [Event.getSpendableCoins, Event.makeUnsignedTransaction]
          match w.makeUnsigned w.spendableCoins dummyOutputs fSub ch with
          | none => (CmdResult.failure "Not enough funds", e0 ++ mf.2 ++ eg)
          | some dtx =>
              let inputs2 := inputs ++ dtx.inputs
              let outputs := ⟨TYPE_ADDRESS ||| TYPE_UPDATE, Payload.updateOf name cid val ca, a⟩ ::
                dtx.outputs.filter (fun o => o.typ &&& TYPE_UPDATE == 0)
              let fin := updateFinish w t inputs2 outputs broadcast
              (fin.1, e0 ++ mf.2 ++ eg ++ fin.2)
        else
          let dummyOutputs := [⟨TYPE_ADDRESS ||| TYPE_UPDATE, Payload.updateOf name cid val ca, a⟩,
                               ⟨TYPE_ADDRESS, Payload.addr ch, v - a⟩]
          let cf := calculateFee w t inputs dummyOutputs fSub
          if v - a < cf.1 then
            (CmdResult.failure "Fee will be greater than change amount, use amount=None to expend change as fee",
             e0 ++ cf.2)
          else
            let outputs := [⟨TYPE_ADDRESS ||| TYPE_UPDATE, Payload.updateOf name cid val ca, a⟩,
                            ⟨TYPE_ADDRESS, Payload.addr ch, v - a - cf.1⟩]
            let fin := updateFinish w t inputs outputs broadcast
            (fin.1, e0 ++ cf.2 ++ fin.2)

/-- `Commands.update` (source lines 1003-1096). -/
def Commands.update (w : WalletEnv) (t : TxEnv) (ptxid : String) (pnout : ℤ)
    (name cidHex val : String) (amount : Option ℚ) (broadcast : Bool)
    (claimAddr : Option String) (txFee : Option ℚ) (changeAddr : Option String) :
    CmdResult UpdateOk × List Event :=
  let ra := resolveAddr w false claimAddr
  let rc := resolveAddr w true changeAddr
  let pre := ra.2 ++ rc.2
  let cid := t.decodeClaimIdHex cidHex
  match updateValidateAmount amount with
  | Except.error msg => (CmdResult.failure msg, pre)
  | Except.ok aSub =>
      match validateTxFee txFee with
      | Except.error msg => (CmdResult.failure msg, pre)
      | Except.ok fSub =>
          let core := updateCore w t ptxid pnout name cid val aSub fSub broadcast ra.1 rc.1
          (core.1, pre ++ core.2)

/-- `Commands.claim` (source lines 888-922). -/
def Commands.claim (w : WalletEnv) (t : TxEnv) (name val : String)
    (amount : ℚ) (broadcast : Bool) (claimAddr : Option String)
    (txFee : Option ℚ) (changeAddr : Option String) :
    CmdResult ClaimOk × List Event :=
  let ra := resolveAddr w false claimAddr
  let rc := resolveAddr w true changeAddr
  let pre := ra.2 ++ rc.2
  let a := toSubunits amount
  if a ≤ 0 then (CmdResult.failure "Amount must be greater than 0", pre)
  else
    match validateTxFee txFee with
    | Except.error msg => (CmdResult.failure msg, pre)
    | Except.ok fSub =>
        let outputs := [⟨TYPE_ADDRESS ||| TYPE_CLAIM, Payload.claim name val ra.1, a⟩]
        let eg := [Event.getSpendableCoins, Event.makeUnsignedTransaction]
        match w.makeUnsigned w.spendableCoins outputs fSub rc.1 with
        | none => (CmdResult.failure "Not enough funds", pre ++ eg)
        | some tx =>
            let post : List Event → CmdResult ClaimOk × List Event := fun es =>
              match (scanLast TYPE_CLAIM tx.outputs).1 with
              | none => (CmdResult.exn "AssertionError", pre ++ eg ++ es)
              | some i =>
                  (CmdResult.ok ⟨t.txHash tx, i, tx, txGetFee tx, t.claimIdOf (t.txHash tx) i⟩,
                   pre ++ eg ++ es)
            if broadcast then
              let so := w.sendtx tx
              if so.1 then post [Event.signTransaction, Event.sendTx]
              else (CmdResult.failure so.2, pre ++ eg ++ [Event.signTransaction, Event.sendTx])
            else post [Event.signTransaction]

/-- `Commands.support` (source lines 943-977). -/
def Commands.support (w : WalletEnv) (t : TxEnv) (name cidHex : String)
    (amount : ℚ) (broadcast : Bool) (claimAddr : Option String)
    (txFee : Option ℚ) (changeAddr : Option String) :
    CmdResult SupportOk × List Event :=
  let ra := resolveAddr w false claimAddr
  let rc := resolveAddr w true changeAddr
  let pre := ra.2 ++ rc.2
  let cid := t.decodeClaimIdHex cidHex
  let a := toSubunits amount
  if a ≤ 0 then (CmdResult.failure "Amount must be greater than 0", pre)
  else
    match validateTxFee txFee with
    | Except.error msg => (CmdResult.failure msg, pre)
    | Except.ok fSub =>
        let outputs := [⟨TYPE_ADDRESS ||| TYPE_SUPPORT, Payload.supportOf name cid ra.1, a⟩]
        let eg := [Event.getSpendableCoins, Event.makeUnsignedTransaction]
        match w.makeUnsigned w.spendableCoins outputs fSub rc.1 with
        | none => (CmdResult.failure "Not enough funds", pre ++ eg)
        | some tx =>
            let okRes : CmdResult SupportOk :=
              CmdResult.ok ⟨t.txHash tx, (scanLast TYPE_SUPPORT tx.outputs).1, tx, txGetFee tx⟩
            if broadcast then
              let so := w.sendtx tx
              if so.1 then (okRes, pre ++ eg ++ [Event.signTransaction, Event.sendTx])
              else (CmdResult.failure so.2, pre ++ eg ++ [Event.signTransaction, Event.sendTx])
            else (okRes, pre ++ eg ++ [Event.signTransaction])

/-- `Commands.abandon` (source lines 1114-1145). -/
def Commands.abandon (w : WalletEnv) (t : TxEnv) (ptxid : String) (pnout : ℤ)
    (broadcast : Bool) (returnAddr : Option String) (txFee : Option ℚ) :
    CmdResult AbandonOk × List Event :=
  let ra := resolveAddr w false returnAddr
  match validateTxFee txFee with
  | Except.error msg => (CmdResult.failure msg, ra.2)
  | Except.ok fSub =>
      let cu := w.claimCoin ptxid pnout
      let e0 := [Event.getSpendableClaimtrieCoin ptxid pnout]
      let inputs := [cu]
      let v := cu.value
      let outputs0 : List TxOutput := [⟨TYPE_ADDRESS, Payload.addr ra.1, v⟩]
      let cf := calculateFee w t inputs outputs0 fSub
      if v < cf.1 then
        (CmdResult.failure "transaction fee exceeds amount to abandon", ra.2 ++ e0 ++ cf.2)
      else
        let outputs : List TxOutput := [⟨TYPE_ADDRESS, Payload.addr ra.1, v - cf.1⟩]
        let tx : Tx := ⟨inputs, outputs⟩
        let okRes : CmdResult AbandonOk := CmdResult.ok ⟨t.txHash tx, tx, txGetFee tx⟩
        if broadcast then
          let so := w.sendtx tx
          if so.1 then (okRes, ra.2 ++ e0 ++ cf.2 ++ [Event.signTransaction, Event.sendTx])
          else (CmdResult.failure so.2, ra.2 ++ e0 ++ cf.2 ++ [Event.signTransaction, Event.sendTx])
        else (okRes, ra.2 ++ e0 ++ cf.2 ++ [Event.signTransaction])

/-- The `proof` dict of a proof response: the claimed transaction
hash and output index, each possibly absent. -/
structure ProofDict where
  txhash : Option String
  nOut : Option ℤ
deriving DecidableEq, Repr

/-- One entry of the supports list of the response: `(txid, nout, amount)`. -/
structure SupportEntry where
  txid : String
  n : ℤ
  amount : ℤ
deriving DecidableEq, Repr

/-- A proof response as consumed by `Commands._verify_proof`; `none`
models an absent dictionary key. -/
structure ProofResponse where
  proof : Option ProofDict
  transaction : Option String
  supports : Option (List SupportEntry)
deriving DecidableEq, Repr

/-- An output of the deserialized transaction: the fields the verifier
reads (`scriptPubKey` hex and `value`). -/
structure DTxOut where
  scriptPubKey : String
  value : ℤ
deriving DecidableEq, Repr

/-- The deserialized transaction: the fields the verifier reads. -/
structure DTx where
  outputs : List DTxOut
  lockTime : ℤ
deriving DecidableEq, Repr

/-- External capabilities of the verifier: the cryptographic inclusion
check (`claims.verify_proof`, raising `InvalidProofError` iff the Bool is
false), hash recomputation, transaction deserialization and claim-script
decoding (returning `none` for `decode_claim_script(...) is False`). -/
structure VerifyEnv where
  verifyProofOk : ProofDict → String → String → Bool
  computeTxHash : String → String
  deserialize : String → DTx
  decodeClaimScript : String → Option (String × String)

/-- The verified-claim record built by `_build_response`.  `amount` is
kept in integer subunits; the Python dict renders it as the decimal string
`str(Decimal(amount)/COIN)`, a pure formatting step. -/
structure ClaimRecord where
  value : String
  txid : String
  nout : ℤ
  amount : ℤ
  height : ℤ
deriving DecidableEq, Repr

/-- Outcome of `_verify_proof`: a success record, a returned
returned error dict, or an uncaught Python exception escaping the
function. -/
inductive VerifyOutcome where
  | ok (r : ClaimRecord)
  | err (msg : String)
  | exn (msg : String)
deriving DecidableEq, Repr

/-- `_parse_proof_result` (source lines 720-747).  Its first statement sums
the supports list of the response, so an absent supports key raises a KeyError before
any other check. -/
def parseProofResult (e : VerifyEnv) (name : String) (r : ProofResponse) :
    VerifyOutcome :=
  match r.supports with
  | none => VerifyOutcome.exn "KeyError: supports"
  | some sups =>
      let supportAmount := (sups.map SupportEntry.amount).sum
      match r.proof with
      | none => VerifyOutcome.exn "KeyError: proof"
      | some p =>
          match p.txhash, p.nOut with
          | some givenTxhash, some nOut =>
              match r.transaction with
              | none => VerifyOutcome.err "didn\x27t receive a transaction with the proof"
              | some raw =>
                  let computed := e.computeTxHash raw
                  let tx := e.deserialize raw
                  if givenTxhash = computed then
                    if h : 0 ≤ nOut ∧ nOut < (tx.outputs.length : ℤ) then
                      let out := tx.outputs.get ⟨nOut.toNat, by omega⟩
                      let effectiveAmount := out.value + supportAmount
                      let ht := tx.lockTime + 1
                      match e.decodeClaimScript out.scriptPubKey with
                      | none => VerifyOutcome.err "failed to decode as claim script"
                      | some (decodedName, decodedValue) =>
                          if decodedName = name then
                            VerifyOutcome.ok
                              ⟨decodedValue, computed, nOut, effectiveAmount, ht⟩
                          else VerifyOutcome.err "name in proof did not match requested name"
                    else
                      VerifyOutcome.err
                        ("invalid nOut: " ++ toString nOut ++ " (let(outputs): " ++
                          toString tx.outputs.length)
                  else
                    VerifyOutcome.err
                      ("computed txid did not match given transaction: " ++ computed ++
                        " vs " ++ givenTxhash)
          | _, _ => VerifyOutcome.err "name is not claimed"

/-- `Commands._verify_proof` (source lines 707-757): missing `proof` key,
then the cryptographic check, then `_parse_proof_result`.  Only
`InvalidProofError` from the cryptographic check is caught. -/
def verifyProofCmd (e : VerifyEnv) (name claimTrieRoot : String)
    (result : ProofResponse) : VerifyOutcome :=
  match result.proof with
  | some p =>
      if e.verifyProofOk p claimTrieRoot name then parseProofResult e name result
      else VerifyOutcome.err "Proof was invalid"
  | none => VerifyOutcome.err "proof not in result"

/-! ### Concrete collaborator instances used by the witnesses -/

/-- A non-support prior claim UTXO of value 5.0 base units. -/
def testCoin : Coin := ⟨false, 500000000, "aa", 0⟩

/-- A support-type prior UTXO. -/
def testSupportCoin : Coin := ⟨true, 500000000, "bb", 0⟩

/-- A deterministic wallet: its coin selection echoes the requested
outputs and appends one plain change output of 42 subunits. -/
def testWallet : WalletEnv :=
  { newAddress := fun b => if b then "chgaddr" else "newaddr"
    claimCoin := fun txid _ => if txid = "sup" then testSupportCoin else testCoin
    spendableCoins := [⟨false, 700000000, "cc", 1⟩]
    makeUnsigned := fun coins outs _ ch =>
      some ⟨coins, outs ++ [⟨TYPE_ADDRESS, Payload.addr ch, 42⟩]⟩
    relayfee := 5000
    feePerKb := 50000
    sendtx := fun _ => (true, "") }

/-- Deterministic `Transaction` helpers: every draft measures 200 bytes,
every extra input 150 bytes, and fees follow `max(relay, size*rate/1000)`,
giving a flat fee of 10000 subunits for drafts and 7500 for the marginal
input. -/
def testTx : TxEnv :=
  { estimatedSize := fun _ _ => 200
    estimatedInputSize := fun _ => 150
    feeForSize := fun relay perkb size => max relay (perkb * size / 1000)
    txHash := fun _ => "deadbeef"
    claimIdOf := fun h n => h ++ toString n
    decodeClaimIdHex := fun s => s }

/-! ### Claims -/

/-- Claim C1: For every update intent whose requested amount is unset
(`None`), with prior claim UTXO value `v` and fee `f` computed from a
draft transaction whose only input is the prior UTXO: the operation fails
with the fee-exceeds-amount rejection exactly when `f ≥ v`, and otherwise
produces a single update-type output of amount `v − f`
(`Commands.update`, lines 1031-1036). -/
theorem C1_update_amount_unset (w : WalletEnv) (t : TxEnv) (ptxid : String)
    (pnout : ℤ) (name cidHex val : String) (claimAddr changeAddr : Option String)
    (txFee : Option ℚ) (fSub : Option ℤ) (cu : Coin) (v f : ℤ)
    (hf : validateTxFee txFee = Except.ok fSub)
    (hcu : w.claimCoin ptxid pnout = cu)
    (hns : cu.is_support = false)
    (hv : cu.value = v)
    (hfee : (calculateFee w t [cu]
        [⟨TYPE_ADDRESS ||| TYPE_UPDATE,
          Payload.updateOf name (t.decodeClaimIdHex cidHex) val (resolveAddr w false claimAddr).1, v⟩]
        fSub).1 = f) :
    ((Commands.update w t ptxid pnout name cidHex val none false claimAddr txFee changeAddr).1 =
        CmdResult.failure "Fee will exceed amount available in original bid. Increase amount" ↔
      v ≤ f) ∧
    (f < v →
      ∃ u, (Commands.update w t ptxid pnout name cidHex val none false claimAddr txFee changeAddr).1 =
          CmdResult.ok u ∧
        u.tx.inputs = [cu] ∧
        u.tx.outputs = [⟨TYPE_ADDRESS ||| TYPE_UPDATE,
          Payload.updateOf name (t.decodeClaimIdHex cidHex) val (resolveAddr w false claimAddr).1,
          v - f⟩]) := by
  subst hv hfee
  simp only [Commands.update, updateValidateAmount, hf, updateCore, hcu, hns, Bool.false_eq_true,
    if_false, updateFinish, Bool.if_false_left]
  by_cases hle : cu.value ≤ (calculateFee w t [cu]
      [⟨TYPE_ADDRESS ||| TYPE_UPDATE,
        Payload.updateOf name (t.decodeClaimIdHex cidHex) val (resolveAddr w false claimAddr).1,
        cu.value⟩] fSub).1
  · refine ⟨by simp [hle], fun hlt => absurd hle (by omega)⟩
  · simp only [if_neg hle]
    constructor
    · simp
      omega
    · intro _
      exact ⟨_, rfl, rfl, rfl⟩

/-- Witness for `C1_update_amount_unset`: prior value 5.0, draft fee
10000 subunits, giving the single update output of 499990000 subunits
(the Scenario B shape of the spec). -/
theorem C1_witness :
    (Commands.update testWallet testTx "t" 0 "n" "c" "v" none false none none none).1 =
        CmdResult.failure "Fee will exceed amount available in original bid. Increase amount" ↔
      (500000000 : ℤ) ≤ 10000 := by
  have h := C1_update_amount_unset testWallet testTx "t" 0 "n" "c" "v" none none none none
    testCoin 500000000 10000 rfl rfl rfl rfl (by decide)
  exact h.1

/-- Claim C2: For every update intent with requested amount `a` satisfying
`0 < a < v`, with fee `f` computed from a draft containing the claim
output at `a` and a change output at `v − a`: the operation fails with
the fee-exceeds-change rejection exactly when `f > v − a`, and otherwise
produces the update-type output at amount `a` plus a plain-address change
output of amount `v − a − f` (`Commands.update`, lines 1069-1079). -/
theorem C2_update_amount_below (w : WalletEnv) (t : TxEnv) (ptxid : String)
    (pnout : ℤ) (name cidHex val : String) (aq : ℚ)
    (claimAddr changeAddr : Option String) (txFee : Option ℚ) (fSub : Option ℤ)
    (cu : Coin) (v aSub f : ℤ)
    (hf : validateTxFee txFee = Except.ok fSub)
    (hcu : w.claimCoin ptxid pnout = cu)
    (hns : cu.is_support = false)
    (hv : cu.value = v)
    (haq : toSubunits aq = aSub)
    (h0 : 0 < aSub) (hav : aSub < v)
    (hfee : (calculateFee w t [cu]
        [⟨TYPE_ADDRESS ||| TYPE_UPDATE,
          Payload.updateOf name (t.decodeClaimIdHex cidHex) val (resolveAddr w false claimAddr).1, aSub⟩,
         ⟨TYPE_ADDRESS, Payload.addr (resolveAddr w true changeAddr).1, v - aSub⟩]
        fSub).1 = f) :
    ((Commands.update w t ptxid pnout name cidHex val (some aq) false claimAddr txFee changeAddr).1 =
        CmdResult.failure "Fee will be greater than change amount, use amount=None to expend change as fee" ↔
      v - aSub < f) ∧
    (f ≤ v - aSub →
      ∃ u, (Commands.update w t ptxid pnout name cidHex val (some aq) false claimAddr txFee changeAddr).1 =
          CmdResult.ok u ∧
        u.tx.inputs = [cu] ∧
        u.tx.outputs = [⟨TYPE_ADDRESS ||| TYPE_UPDATE,
            Payload.updateOf name (t.decodeClaimIdHex cidHex) val (resolveAddr w false claimAddr).1, aSub⟩,
          ⟨TYPE_ADDRESS, Payload.addr (resolveAddr w true changeAddr).1, v - aSub - f⟩]) := by
  subst hv haq hfee
  simp only [Commands.update, updateValidateAmount, if_neg (by omega : ¬ toSubunits aq ≤ 0), hf,
    updateCore, hcu, hns, Bool.false_eq_true, if_false,
    if_neg (by omega : ¬ cu.value ≤ toSubunits aq), updateFinish, Bool.if_false_left]
  by_cases hlt : cu.value - toSubunits aq < (calculateFee w t [cu]
      [⟨TYPE_ADDRESS ||| TYPE_UPDATE,
        Payload.updateOf name (t.decodeClaimIdHex cidHex) val (resolveAddr w false claimAddr).1,
        toSubunits aq⟩,
       ⟨TYPE_ADDRESS, Payload.addr (resolveAddr w true changeAddr).1, cu.value - toSubunits aq⟩]
      fSub).1
  · refine ⟨by simp [hlt], fun hle => absurd hlt (by omega)⟩
  · simp only [if_neg hlt]
    constructor
    · simp
      omega
    · intro _
      exact ⟨_, rfl, rfl, rfl⟩

/-- Witness for `C2_update_amount_below`: Scenario C of the spec — prior
value 5.0, requested amount 2.0, fee 10000 subunits. -/
theorem C2_witness :
    (Commands.update testWallet testTx "t" 0 "n" "c" "v" (some 2) false none none none).1 =
        CmdResult.failure "Fee will be greater than change amount, use amount=None to expend change as fee" ↔
      (500000000 : ℤ) - 200000000 < 10000 := by
  have h := C2_update_amount_below testWallet testTx "t" 0 "n" "c" "v" 2 none none none none
    testCoin 500000000 200000000 10000 rfl rfl rfl rfl (by decide) (by decide) (by decide)
    (by decide)
  exact h.1

/-- Claim C3: For every update intent with requested amount `a ≥ v` and no
explicit fee override: a secondary draft transaction is built whose
target output amount is `a − v` plus the marginal fee for including the
prior claim input; the inputs of the final transaction are the prior claim
UTXO plus all inputs of the draft, and its outputs are the update-type
output at `a` plus exactly the outputs of the draft not carrying the update
flag (`Commands.update`, lines 1041-1067). -/
theorem C3_update_amount_at_least (w : WalletEnv) (t : TxEnv) (ptxid : String)
    (pnout : ℤ) (name cidHex val : String) (aq : ℚ)
    (claimAddr changeAddr : Option String) (cu : Coin) (v aSub aif : ℤ) (dtx : Tx)
    (hcu : w.claimCoin ptxid pnout = cu)
    (hns : cu.is_support = false)
    (hv : cu.value = v)
    (haq : toSubunits aq = aSub)
    (h0 : 0 < aSub) (hva : v ≤ aSub)
    (haif : t.feeForSize w.relayfee w.feePerKb (t.estimatedInputSize cu) = aif)
    (hdraft : w.makeUnsigned w.spendableCoins
        [⟨TYPE_ADDRESS ||| TYPE_UPDATE,
          Payload.updateOf name (t.decodeClaimIdHex cidHex) val (resolveAddr w false claimAddr).1,
          aSub - v + aif⟩]
        none (resolveAddr w true changeAddr).1 = some dtx) :
    ∃ u, (Commands.update w t ptxid pnout name cidHex val (some aq) false claimAddr none changeAddr).1 =
        CmdResult.ok u ∧
      u.tx.inputs = cu :: dtx.inputs ∧
      u.tx.outputs = ⟨TYPE_ADDRESS ||| TYPE_UPDATE,
          Payload.updateOf name (t.decodeClaimIdHex cidHex) val (resolveAddr w false claimAddr).1,
          aSub⟩ ::
        dtx.outputs.filter (fun o => o.typ &&& TYPE_UPDATE == 0) := by
  subst hv haq haif
  simp only [Commands.update, updateValidateAmount, if_neg (by omega : ¬ toSubunits aq ≤ 0),
    validateTxFee, updateCore, hcu, hns, Bool.false_eq_true, if_false,
    if_pos hva, marginalInputFee, hdraft, updateFinish, Bool.if_false_left,
    List.singleton_append]
  exact ⟨_, rfl, rfl, rfl⟩

/-- Witness for `C3_update_amount_at_least`: prior value 5.0, requested
amount 7.0; the wallet draft for the 200007500-subunit deficit selects
one 7.0 coin and returns one change output, which is merged. -/
theorem C3_witness :
    ∃ u, (Commands.update testWallet testTx "t" 0 "n" "c" "v" (some 7) false none none none).1 =
        CmdResult.ok u ∧
      u.tx.inputs = testCoin :: [⟨false, 700000000, "cc", 1⟩] ∧
      u.tx.outputs = ⟨TYPE_ADDRESS ||| TYPE_UPDATE, Payload.updateOf "n" "c" "v" "newaddr", 700000000⟩ ::
        List.filter (fun o => o.typ &&& TYPE_UPDATE == 0)
          [⟨TYPE_ADDRESS ||| TYPE_UPDATE, Payload.updateOf "n" "c" "v" "newaddr", 200007500⟩,
           ⟨TYPE_ADDRESS, Payload.addr "chgaddr", 42⟩] := by
  exact C3_update_amount_at_least testWallet testTx "t" 0 "n" "c" "v" 7 none none
    testCoin 500000000 700000000 7500
    ⟨[⟨false, 700000000, "cc", 1⟩],
     [⟨TYPE_ADDRESS ||| TYPE_UPDATE, Payload.updateOf "n" "c" "v" "newaddr", 200007500⟩,
      ⟨TYPE_ADDRESS, Payload.addr "chgaddr", 42⟩]⟩
    rfl rfl rfl (by decide) (by decide) (by decide) (by decide) (by decide)

/-- Claim C5: For every abandon intent on a prior claim UTXO of value `v`,
with fee `f` computed from the exact single-input/single-output pair: the
operation fails with the fee-exceeds-amount rejection exactly when
`f > v`, and otherwise the finalized transaction has the single
prior-claim input and a single plain-address output of amount `v − f`
(`Commands.abandon`, lines 1124-1139). -/
theorem C5_abandon (w : WalletEnv) (t : TxEnv) (ptxid : String) (pnout : ℤ)
    (returnAddr : Option String) (txFee : Option ℚ) (fSub : Option ℤ)
    (cu : Coin) (v f : ℤ)
    (hf : validateTxFee txFee = Except.ok fSub)
    (hcu : w.claimCoin ptxid pnout = cu)
    (hv : cu.value = v)
    (hfee : (calculateFee w t [cu]
        [⟨TYPE_ADDRESS, Payload.addr (resolveAddr w false returnAddr).1, v⟩] fSub).1 = f) :
    ((Commands.abandon w t ptxid pnout false returnAddr txFee).1 =
        CmdResult.failure "transaction fee exceeds amount to abandon" ↔ v < f) ∧
    (f ≤ v →
      ∃ u, (Commands.abandon w t ptxid pnout false returnAddr txFee).1 = CmdResult.ok u ∧
        u.tx = ⟨[cu], [⟨TYPE_ADDRESS, Payload.addr (resolveAddr w false returnAddr).1, v - f⟩]⟩) := by
  subst hv hfee
  simp only [Commands.abandon, hf, hcu, Bool.if_false_left]
  by_cases hlt : cu.value < (calculateFee w t [cu]
      [⟨TYPE_ADDRESS, Payload.addr (resolveAddr w false returnAddr).1, cu.value⟩] fSub).1
  · refine ⟨by simp [hlt], fun hle => absurd hlt (by omega)⟩
  · simp only [if_neg hlt]
    constructor
    · simp
      omega
    · intro _
      exact ⟨_, rfl, rfl⟩

/-- Witness for `C5_abandon`: prior value 5.0, fee 10000 subunits — the
single return output holds 499990000 subunits (Scenario E shape). -/
theorem C5_witness :
    (Commands.abandon testWallet testTx "t" 0 false none none).1 =
        CmdResult.failure "transaction fee exceeds amount to abandon" ↔
      (500000000 : ℤ) < 10000 := by
  have h := C5_abandon testWallet testTx "t" 0 none none none testCoin 500000000 10000
    rfl rfl rfl (by decide)
  exact h.1

/-- Claim C6: For every update intent whose prior UTXO is a support-type
output (and whose amount/fee arguments pass the preceding validation),
the operation is rejected with the cannot-update-support reason, and the
rejection happens before any draft transaction is built or any output is
assembled: the only collaborator calls on the trace are address creation
and the prior-UTXO fetch (`Commands.update`, lines 1023-1025). -/
theorem C6_cannot_update_support (w : WalletEnv) (t : TxEnv) (ptxid : String)
    (pnout : ℤ) (name cidHex val : String) (amount : Option ℚ) (broadcast : Bool)
    (claimAddr changeAddr : Option String) (txFee : Option ℚ)
    (aSub fSub : Option ℤ)
    (ha : updateValidateAmount amount = Except.ok aSub)
    (hf : validateTxFee txFee = Except.ok fSub)
    (hsup : (w.claimCoin ptxid pnout).is_support = true) :
    (Commands.update w t ptxid pnout name cidHex val amount broadcast claimAddr txFee changeAddr).1 =
        CmdResult.failure "Cannot update a support" ∧
    ∀ e ∈ (Commands.update w t ptxid pnout name cidHex val amount broadcast claimAddr txFee changeAddr).2,
      (∃ b, e = Event.createNewAddress b) ∨ e = Event.getSpendableClaimtrieCoin ptxid pnout := by
  simp only [Commands.update, ha, hf, updateCore, hsup, if_true]
  refine ⟨by trivial, ?_⟩
  intro e he
  cases claimAddr <;> cases changeAddr <;>
    simp only [resolveAddr, List.nil_append, List.append_nil, List.cons_append,
      List.mem_cons, List.mem_singleton, List.not_mem_nil, or_false, false_or] at he <;>
    rcases he with rfl | rfl | rfl | rfl
  all_goals first
    | exact Or.inl ⟨_, rfl⟩
    | exact Or.inr rfl

/-- Witness for `C6_cannot_update_support`: updating a support-type UTXO
is rejected with only the address creations and the UTXO fetch on the
trace. -/
theorem C6_witness :
    (Commands.update testWallet testTx "sup" 0 "n" "c" "v" none false none none none).1 =
        CmdResult.failure "Cannot update a support" ∧
    ∀ e ∈ (Commands.update testWallet testTx "sup" 0 "n" "c" "v" none false none none none).2,
      (∃ b, e = Event.createNewAddress b) ∨ e = Event.getSpendableClaimtrieCoin "sup" 0 := by
  exact C6_cannot_update_support testWallet testTx "sup" 0 "n" "c" "v" none false none none none
    none none rfl rfl rfl

/-! ### Verifier test fixtures -/

/-- A verifier environment whose cryptographic check always passes: the
deserialized transaction has two outputs and only the second decodes as a
claim script for name `nm`. -/
def testVerifyEnv : VerifyEnv :=
  { verifyProofOk := fun _ _ _ => true
    computeTxHash := fun _ => "cafe"
    deserialize := fun _ => ⟨[⟨"script0", 11⟩, ⟨"script1", 22⟩], 99⟩
    decodeClaimScript := fun s => if s = "script1" then some ("nm", "vv") else none }

/-- Like `testVerifyEnv` but the cryptographic check always fails. -/
def testVerifyEnvBad : VerifyEnv :=
  { verifyProofOk := fun _ _ _ => false
    computeTxHash := fun _ => "cafe"
    deserialize := fun _ => ⟨[⟨"script0", 11⟩, ⟨"script1", 22⟩], 99⟩
    decodeClaimScript := fun s => if s = "script1" then some ("nm", "vv") else none }

/-- A response whose proof names no transaction (`txhash`/`nOut` absent)
but carries a (empty) supports list. -/
def respNoTxhash : ProofResponse := ⟨some ⟨none, none⟩, none, some []⟩

/-- A response whose proof names output index 2 of a 2-output transaction. -/
def respBadIndex : ProofResponse := ⟨some ⟨some "cafe", some 2⟩, some "rawtx", some []⟩

/-- A response that passes the cryptographic check but lacks the
`supports` key. -/
def respNoSupports : ProofResponse := ⟨some ⟨none, none⟩, none, none⟩

/-! ### String helper lemmas (to separate the error messages of the verifier) -/

/-- `String.append` acts as list append on the underlying character data. -/
theorem stringDataAppend (a b : String) : (a ++ b).data = a.data ++ b.data := by
  cases a
  cases b
  rfl

/-- The index-out-of-range message is never the script-decode message. -/
theorem invalidNOutMsgNeDecodeMsg (b c d : String) :
    "invalid nOut: " ++ b ++ c ++ d ≠ "failed to decode as claim script" := by
  intro h
  have h2 := congrArg String.data h
  rw [stringDataAppend, stringDataAppend, stringDataAppend] at h2
  simp at h2

/-- The index-out-of-range message is never the name-mismatch message. -/
theorem invalidNOutMsgNeNameMsg (b c d : String) :
    "invalid nOut: " ++ b ++ c ++ d ≠ "name in proof did not match requested name" := by
  intro h
  have h2 := congrArg String.data h
  rw [stringDataAppend, stringDataAppend, stringDataAppend] at h2
  simp at h2

/-! ### Verifier claims -/

/-- Claim C4, amended: For every proof response whose `proof` passes the
cryptographic check, whose `supports` key is present, and whose proof
lacks `txhash` or `nOut`: the verifier returns the distinct rejection
message `name is not claimed` as a normal return value — but it is
delivered through the same error-keyed result shape used for
faults (the `.err` constructor below), not as a separate non-error
outcome (`_parse_proof_result`, lines 722 and 747). -/
theorem C4_name_not_claimed (e : VerifyEnv) (name root : String)
    (r : ProofResponse) (p : ProofDict) (sups : List SupportEntry)
    (hp : r.proof = some p) (hok : e.verifyProofOk p root name = true)
    (hs : r.supports = some sups) (habs : p.txhash = none ∨ p.nOut = none) :
    verifyProofCmd e name root r = VerifyOutcome.err "name is not claimed" := by
  simp only [verifyProofCmd, hp, hok, if_true, parseProofResult, hs]
  cases hx : p.txhash with
  | none => rfl
  | some hsh =>
      cases hn : p.nOut with
      | none => rfl
      | some n =>
          rw [hx, hn] at habs
          simp at habs

/-- Witness for `C4_name_not_claimed`. -/
theorem C4_witness :
    verifyProofCmd testVerifyEnv "nm" "rt" respNoTxhash =
      VerifyOutcome.err "name is not claimed" := by
  exact C4_name_not_claimed testVerifyEnv "nm" "rt" respNoTxhash ⟨none, none⟩ []
    rfl rfl rfl (Or.inl rfl)

/-- Claim C4, counterexample to the claim as stated.  The claim calls the
`name is not claimed` outcome "a valid non-error outcome, not a
fault/error; but the code returns it inside an error-keyed dict — the very same result shape (the err constructor) through which
genuine faults such as `Proof was invalid` are delivered. -/
theorem C4_counterexample :
    verifyProofCmd testVerifyEnv "nm" "rt" respNoTxhash =
        VerifyOutcome.err "name is not claimed" ∧
      verifyProofCmd testVerifyEnvBad "nm" "rt" respNoTxhash =
        VerifyOutcome.err "Proof was invalid" := by
  decide

/-- Claim C7: For every proof response that reaches the index check (proof
present and cryptographically valid, supports present, transaction
present, recomputed hash equal to the txhash of the proof), the verifier
rejects with the index-out-of-range reason exactly when its
output index is negative or `≥ len(outputs)` (`_parse_proof_result`,
lines 728 and 742); in particular an index equal to `len(outputs)` is
rejected (see the witness). -/
theorem C7_index_out_of_range (e : VerifyEnv) (name root : String)
    (r : ProofResponse) (p : ProofDict) (sups : List SupportEntry)
    (hsh raw : String) (n : ℤ)
    (hp : r.proof = some p) (hs : r.supports = some sups)
    (hth : p.txhash = some hsh) (hn : p.nOut = some n)
    (hok : e.verifyProofOk p root name = true)
    (ht : r.transaction = some raw)
    (hhash : hsh = e.computeTxHash raw) :
    (verifyProofCmd e name root r =
        VerifyOutcome.err ("invalid nOut: " ++ toString n ++ " (let(outputs): " ++
          toString (e.deserialize raw).outputs.length) ↔
      (n < 0 ∨ ((e.deserialize raw).outputs.length : ℤ) ≤ n)) := by
  subst hhash
  simp only [verifyProofCmd, hp, hok, if_true, parseProofResult, hs, hth, hn, ht, if_pos rfl]
  by_cases hrange : 0 ≤ n ∧ n < ((e.deserialize raw).outputs.length : ℤ)
  · rw [dif_pos hrange]
    constructor
    · intro hres
      exfalso
      split at hres
      · exact invalidNOutMsgNeDecodeMsg _ _ _ (VerifyOutcome.err.inj hres).symm
      · split at hres
        · exact VerifyOutcome.noConfusion hres
        · exact invalidNOutMsgNeNameMsg _ _ _ (VerifyOutcome.err.inj hres).symm
    · intro hR
      exact absurd hR (by omega)
  · rw [dif_neg hrange]
    exact iff_of_true rfl (by omega)

/-- Witness for `C7_index_out_of_range`: index 2 with exactly 2 outputs
is rejected with the index message. -/
theorem C7_witness :
    verifyProofCmd testVerifyEnv "nm" "rt" respBadIndex =
      VerifyOutcome.err "invalid nOut: 2 (let(outputs): 2" := by
  have h := (C7_index_out_of_range testVerifyEnv "nm" "rt" respBadIndex
    ⟨some "cafe", some 2⟩ [] "cafe" "rawtx" 2 rfl rfl rfl rfl rfl rfl rfl).mpr
    (Or.inr (by decide))
  rw [h]
  decide

/-- Claim C10: For every proof response that contains a `proof` passing the
cryptographic check, `_parse_proof_result` sums the supports list
before any other check (line 721), so a response lacking the `supports`
key raises an uncaught `KeyError` instead of returning a structured
rejection — even when `txhash`/`nOut` are absent and supports are
irrelevant to the result (the only `try` in `_verify_proof` catches
`InvalidProofError` around `verify_proof` alone, lines 750-755). -/
theorem C10_missing_supports_raises (e : VerifyEnv) (name root : String)
    (r : ProofResponse) (p : ProofDict)
    (hp : r.proof = some p) (hok : e.verifyProofOk p root name = true)
    (hs : r.supports = none) :
    verifyProofCmd e name root r = VerifyOutcome.exn "KeyError: supports" := by
  simp only [verifyProofCmd, hp, hok, if_true, parseProofResult, hs]

/-- Witness for `C10_missing_supports_raises`: the proof claims no
transaction (the "name not claimed" case), yet the missing `supports`
key still raises. -/
theorem C10_witness :
    verifyProofCmd testVerifyEnv "nm" "rt" respNoSupports =
      VerifyOutcome.exn "KeyError: supports" := by
  exact C10_missing_supports_raises testVerifyEnv "nm" "rt" respNoSupports
    ⟨none, none⟩ rfl rfl rfl

/-! ### Amount conversion (C8) -/

/-- For nonnegative amounts, `int(COIN*amount)` is the floor of the
scaled exact rational. -/
theorem toSubunits_eq_floor (q : ℚ) (h : 0 ≤ q) : toSubunits q = ⌊q * (COIN : ℚ)⌋ := by
  have hnum : 0 ≤ q.num := Rat.num_nonneg.2 h
  have hq : q * (COIN : ℚ) = ((COIN * q.num : ℤ) : ℚ) / ((q.den : ℕ) : ℚ) := by
    conv_lhs => rw [← Rat.num_div_den q]
    push_cast
    ring
  rw [hq, Rat.floor_intCast_div_natCast]
  unfold toSubunits
  exact Int.tdiv_eq_ediv (Int.mul_nonneg (by norm_num [COIN]) hnum) (Int.ofNat_nonneg _)

/-- Claim C8, amended: For every nonnegative decimal base-unit amount `q`
accepted by the operations, the subunit amount used is
`int(q × 10^8)` — the *truncation* (floor, for nonnegative amounts) of
the exactly-scaled rational, not `round(q × 10^8)`; the two agree
whenever `q × 10^8` is an integer (at most 8 decimal places), and a
non-positive converted amount is rejected where positivity is required
(`Commands.claim` lines 894-896; `Commands.update` lines 1014-1017). -/
theorem C8_amount_conversion (q : ℚ) (h : 0 ≤ q) :
    toSubunits q = ⌊q * (COIN : ℚ)⌋ ∧
    ((q * (COIN : ℚ)).den = 1 → toSubunits q = round (q * (COIN : ℚ))) ∧
    (∀ (w : WalletEnv) (t : TxEnv) (name val : String) (broadcast : Bool)
        (claimAddr : Option String) (txFee : Option ℚ) (changeAddr : Option String),
      toSubunits q ≤ 0 →
        (Commands.claim w t name val q broadcast claimAddr txFee changeAddr).1 =
          CmdResult.failure "Amount must be greater than 0") := by
  refine ⟨toSubunits_eq_floor q h, ?_, ?_⟩
  · intro hden
    have hint : (((q * (COIN : ℚ)).num : ℤ) : ℚ) = q * (COIN : ℚ) :=
      (Rat.den_eq_one_iff _).1 hden
    rw [toSubunits_eq_floor q h, ← hint, Int.floor_intCast, round_intCast]
  · intro w t name val broadcast claimAddr txFee changeAddr hle
    simp only [Commands.claim, if_pos hle]

/-- Claim C8, counterexample to the claim as stated.  At the base-unit
amount 19/10^9 the code uses `int(COIN*amount) = 1` subunit, whereas
`round(amount × 10^8) = round(1.9) = 2`: the conversion truncates, it
does not round. -/
theorem C8_counterexample :
    toSubunits (mkRat 19 1000000000) = 1 ∧
    round ((mkRat 19 1000000000 : ℚ) * (COIN : ℚ)) = 2 := by
  constructor
  · decide
  · have hv : (mkRat 19 1000000000 : ℚ) * (COIN : ℚ) = 19 / 10 := by
      rw [Rat.mkRat_eq_divInt, Rat.divInt_eq_div]
      norm_num [COIN]
    rw [hv]
    norm_num [round_eq]

/-- Witness for `C8_amount_conversion` at the integral amount 2.0. -/
theorem C8_witness : toSubunits 2 = 200000000 ∧ (0 : ℚ) ≤ 2 := by
  have h := C8_amount_conversion 2 (by norm_num)
  refine ⟨?_, by norm_num⟩
  rw [h.1]
  norm_num [COIN]

/-! ### Validation ordering (C9) -/

/-- Trace predicate: every recorded collaborator call is a wallet
new-address creation. -/
def onlyAddressCreation (es : List Event) : Prop :=
  ∀ e ∈ es, ∃ b, e = Event.createNewAddress b

/-- The trace of resolving one optional address is only address creation. -/
theorem resolveAddr_trace (w : WalletEnv) (f : Bool) (a : Option String) :
    onlyAddressCreation (resolveAddr w f a).2 := by
  intro e he
  cases a with
  | some x => simp [resolveAddr] at he
  | none =>
      simp only [resolveAddr, List.mem_singleton] at he
      exact ⟨f, he⟩

/-- `onlyAddressCreation` is closed under append. -/
theorem onlyAddressCreation_append {es fs : List Event}
    (h1 : onlyAddressCreation es) (h2 : onlyAddressCreation fs) :
    onlyAddressCreation (es ++ fs) := by
  intro e he
  rcases List.mem_append.1 he with h | h
  exacts [h1 e h, h2 e h]

/-- Claim C9, amended: For every claim/support/update/abandon invocation
with a malformed intent (converted amount ≤ 0, or negative converted fee
override), the validation rejection is returned before any coin
enumeration, fee estimation, transaction construction, signing or
network call — the only collaborator calls that may precede it are the
wallet new-address creations performed for unspecified
claim/change/return addresses (`Commands.claim` lines 889-900,
`Commands.support` 946-958, `Commands.update` 1007-1021,
`Commands.abandon` 1116-1122). -/
theorem C9_validation_before_collaborators (w : WalletEnv) (t : TxEnv) :
    (∀ (name val : String) (q : ℚ) (broadcast : Bool) (ca : Option String)
        (txFee : Option ℚ) (ch : Option String),
      (toSubunits q ≤ 0 ∨ ∃ fq, txFee = some fq ∧ toSubunits fq < 0) →
        ((Commands.claim w t name val q broadcast ca txFee ch).1 =
            CmdResult.failure "Amount must be greater than 0" ∨
          (Commands.claim w t name val q broadcast ca txFee ch).1 =
            CmdResult.failure "tx_fee must be greater than or equal to 0") ∧
        onlyAddressCreation (Commands.claim w t name val q broadcast ca txFee ch).2) ∧
    (∀ (name cidHex : String) (q : ℚ) (broadcast : Bool) (ca : Option String)
        (txFee : Option ℚ) (ch : Option String),
      (toSubunits q ≤ 0 ∨ ∃ fq, txFee = some fq ∧ toSubunits fq < 0) →
        ((Commands.support w t name cidHex q broadcast ca txFee ch).1 =
            CmdResult.failure "Amount must be greater than 0" ∨
          (Commands.support w t name cidHex q broadcast ca txFee ch).1 =
            CmdResult.failure "tx_fee must be greater than or equal to 0") ∧
        onlyAddressCreation (Commands.support w t name cidHex q broadcast ca txFee ch).2) ∧
    (∀ (ptxid : String) (pnout : ℤ) (name cidHex val : String) (amount : Option ℚ)
        (broadcast : Bool) (ca : Option String) (txFee : Option ℚ) (ch : Option String),
      ((∃ aq, amount = some aq ∧ toSubunits aq ≤ 0) ∨
        (∃ fq, txFee = some fq ∧ toSubunits fq < 0)) →
        ((Commands.update w t ptxid pnout name cidHex val amount broadcast ca txFee ch).1 =
            CmdResult.failure "Amount must be greater than 0" ∨
          (Commands.update w t ptxid pnout name cidHex val amount broadcast ca txFee ch).1 =
            CmdResult.failure "tx_fee must be greater than or equal to 0") ∧
        onlyAddressCreation
          (Commands.update w t ptxid pnout name cidHex val amount broadcast ca txFee ch).2) ∧
    (∀ (ptxid : String) (pnout : ℤ) (broadcast : Bool) (ra : Option String)
        (txFee : Option ℚ) (fq : ℚ),
      txFee = some fq → toSubunits fq < 0 →
        (Commands.abandon w t ptxid pnout broadcast ra txFee).1 =
            CmdResult.failure "tx_fee must be greater than or equal to 0" ∧
        onlyAddressCreation (Commands.abandon w t ptxid pnout broadcast ra txFee).2) := by
  have hpre : ∀ (a b : Option String),
      onlyAddressCreation ((resolveAddr w false a).2 ++ (resolveAddr w true b).2) :=
    fun a b => onlyAddressCreation_append (resolveAddr_trace w false a) (resolveAddr_trace w true b)
  refine ⟨?_, ?_, ?_, ?_⟩
  · intro name val q broadcast ca txFee ch hmal
    by_cases hq : toSubunits q ≤ 0
    · exact ⟨Or.inl (by simp only [Commands.claim, if_pos hq]), by
        simp only [Commands.claim, if_pos hq]
        exact hpre ca ch⟩
    · rcases hmal with hq2 | ⟨fq, hfq, hneg⟩
      · exact absurd hq2 hq
      · subst hfq
        refine ⟨Or.inr ?_, ?_⟩ <;>
          simp only [Commands.claim, if_neg hq, validateTxFee, if_pos hneg]
        exact hpre ca ch
  · intro name cidHex q broadcast ca txFee ch hmal
    by_cases hq : toSubunits q ≤ 0
    · exact ⟨Or.inl (by simp only [Commands.support, if_pos hq]), by
        simp only [Commands.support, if_pos hq]
        exact hpre ca ch⟩
    · rcases hmal with hq2 | ⟨fq, hfq, hneg⟩
      · exact absurd hq2 hq
      · subst hfq
        refine ⟨Or.inr ?_, ?_⟩ <;>
          simp only [Commands.support, if_neg hq, validateTxFee, if_pos hneg]
        exact hpre ca ch
  · intro ptxid pnout name cidHex val amount broadcast ca txFee ch hmal
    rcases hmal with ⟨aq, haq, hle⟩ | ⟨fq, hfq, hneg⟩
    · subst haq
      refine ⟨Or.inl ?_, ?_⟩ <;>
        simp only [Commands.update, updateValidateAmount, if_pos hle]
      exact hpre ca ch
    · subst hfq
      by_cases hq : ∃ aq, amount = some aq ∧ toSubunits aq ≤ 0
      · rcases hq with ⟨aq, haq, hle⟩
        subst haq
        refine ⟨Or.inl ?_, ?_⟩ <;>
          simp only [Commands.update, updateValidateAmount, if_pos hle]
        exact hpre ca ch
      · have hval : updateValidateAmount amount = Except.ok (amount.map toSubunits) := by
          cases amount with
          | none => rfl
          | some aq =>
              have : ¬ toSubunits aq ≤ 0 := fun hc => hq ⟨aq, rfl, hc⟩
              simp only [updateValidateAmount, if_neg this]
              rfl
        refine ⟨Or.inr ?_, ?_⟩ <;>
          simp only [Commands.update, hval, validateTxFee, if_pos hneg]
        exact hpre ca ch
  · intro ptxid pnout broadcast ra txFee fq hfq hneg
    subst hfq
    refine ⟨?_, ?_⟩ <;>
      simp only [Commands.abandon, validateTxFee, if_pos hneg]
    exact resolveAddr_trace w false ra

/-- Claim C9, counterexample to the claim as stated.  A claim invocation
with amount −1 and unspecified addresses is rejected by validation, yet
two wallet collaborator calls (`create_new_address`, lines 890-893) have
already been made before the rejection. -/
theorem C9_counterexample :
    (Commands.claim testWallet testTx "nm" "vl" (-1) false none none none).1 =
        CmdResult.failure "Amount must be greater than 0" ∧
    (Commands.claim testWallet testTx "nm" "vl" (-1) false none none none).2 =
        [Event.createNewAddress false, Event.createNewAddress true] := by
  decide

/-- Witness for `C9_validation_before_collaborators`: the claim part at
amount −1. -/
theorem C9_witness :
    ((Commands.claim testWallet testTx "nm" "vl" (-1) false none none none).1 =
        CmdResult.failure "Amount must be greater than 0" ∨
      (Commands.claim testWallet testTx "nm" "vl" (-1) false none none none).1 =
        CmdResult.failure "tx_fee must be greater than or equal to 0") ∧
    onlyAddressCreation (Commands.claim testWallet testTx "nm" "vl" (-1) false none none none).2 := by
  exact (C9_validation_before_collaborators testWallet testTx).1 "nm" "vl" (-1) false none none none
    (Or.inl (by decide))

end Lbryum
